import Mathlib

/-!
Verification development for the `react-discord-login` repository.

The source of truth is `src/utils.ts` (exported `normalizeDiscordConfig`,
`generateUrl`, `getCallbackResponse`, `fetchUser`, `shouldHandleCallback`,
internal `getQueryAndHash`) together with the hook `src/useDiscordLogin.ts`
(`handleCallback`, `callbackRunner`, the `isMountedRef` cleanup effect).

URL query strings and hash fragments are modelled at the parameter level:
a location's query (resp. fragment) is a list of key/value pairs, in the
order `URLSearchParams` iterates them.  JavaScript-specific coercions that
the code relies on (`String(null) = "null"`, `Number(null) = 0`, string
truthiness) are modelled explicitly below.
-/

namespace DiscordLogin

/-- A parsed parameter list (`URLSearchParams` contents): key/value pairs in
iteration order.  Duplicate keys may occur, as in a raw query string. -/
abbrev Params := List (String × String)

/-- The value a key ends up with after `params.set(key, value)` has been called
for every pair of `l` in order: the value of the last pair with that key. -/
def lastVal (l : Params) (k : String) : Option String :=
  ((l.filter (fun p => p.1 == k)).map (fun p => p.2)).getLast?

/-- Whether some pair of `l` has key `k` (the key shows up in `params.keys()`,
whatever its value, including the empty string). -/
def hasKey (l : Params) (k : String) : Bool :=
  l.any (fun p => p.1 == k)

/-- `getQueryAndHash` of `utils.ts`, as the lookup function of the merged map:
an empty `URLSearchParams` is filled by `set`-ing every query pair, then every
fragment pair, so a fragment value overrides a query value for the same key and
within one source the last occurrence wins. -/
def getQueryAndHash (q f : Params) (k : String) : Option String :=
  (lastVal f k).orElse (fun _ => lastVal q k)

/-- Whether `k` is among the merged map's keys (`params.keys()` after the two
`set` loops): present in either source. -/
def mergedHasKey (q f : Params) (k : String) : Bool :=
  hasKey q k || hasKey f k

/-- JavaScript truthiness of a `string | null` value as returned by
`URLSearchParams.get`: `null` and the empty string are falsy. -/
def truthyStr : Option String → Bool
  | none => false
  | some s => !(s == "")

/-- JavaScript `String(·)` applied to a `string | null` value:
`String(null)` is the literal text `"null"`. -/
def jsStr : Option String → String
  | none => "null"
  | some s => s

/-- A JavaScript number as far as this code observes it: `NaN` or a rational
value.  (`expires_in` is produced by `Number(...)` on a string-or-null.) -/
inductive JsNum where
  | nan : JsNum
  | num : ℚ → JsNum
deriving DecidableEq

/-- Numeric value of a list of decimal digit characters. -/
def digitsToNat (cs : List Char) : Nat :=
  cs.foldl (fun a c => a * 10 + (c.toNat - 48)) 0

/-- Split a character list at every occurrence of `c` (the semantics of
JavaScript `split` with a single-character separator: `n` separators yield
`n + 1` groups, empty groups included). -/
def splitChar (c : Char) : List Char → List (List Char)
  | [] => [[]]
  | x :: xs =>
    match splitChar c xs with
    | [] => [[]]
    | g :: gs => if x = c then [] :: g :: gs else (x :: g) :: gs

/-- Parse an unsigned decimal mantissa (`"12"`, `"12.5"`, `".5"`, `"12."`). -/
def parseUnsigned (cs : List Char) : Option ℚ :=
  match splitChar '.' cs with
  | [i] =>
    if !i.isEmpty && i.all Char.isDigit then
      some (digitsToNat i : ℚ)
    else none
  | [i, fr] =>
    if (!i.isEmpty || !fr.isEmpty) && i.all Char.isDigit && fr.all Char.isDigit then
      some ((digitsToNat i : ℚ) + (digitsToNat fr : ℚ) / (10 : ℚ) ^ fr.length)
    else none
  | _ => none

/-- Parse a signed decimal mantissa. -/
def parseSigned (cs : List Char) : Option ℚ :=
  match cs with
  | '-' :: rest => (parseUnsigned rest).map (fun q => -q)
  | '+' :: rest => parseUnsigned rest
  | _ => parseUnsigned cs

/-- Parse an unsigned run of decimal digits. -/
def parseDigits (cs : List Char) : Option Nat :=
  if !cs.isEmpty && cs.all Char.isDigit then some (digitsToNat cs) else none

/-- Parse an exponent part (the text after `e`/`E`). -/
def parseExp (cs : List Char) : Option Int :=
  match cs with
  | '-' :: rest => (parseDigits rest).map (fun n => -(n : Int))
  | '+' :: rest => (parseDigits rest).map (fun n => (n : Int))
  | _ => (parseDigits cs).map (fun n => (n : Int))

/-- Strip leading and trailing whitespace. -/
def trimChars (cs : List Char) : List Char :=
  ((cs.dropWhile Char.isWhitespace).reverse.dropWhile Char.isWhitespace).reverse

/-- ECMAScript `Number(·)` applied to a string, restricted to decimal numeric
literals with optional sign, fraction and exponent.  The whole-string-trim,
empty-string-to-`0` and parse-failure-to-`NaN` behaviours are the ones the
parser claims depend on.  (Hex/binary/octal literals and `Infinity`, which no
claim touches, are not modelled and fall to `NaN`.) -/
def jsToNumber (s : String) : JsNum :=
  let t := trimChars s.toList
  if t.isEmpty then .num 0
  else
    match splitChar 'e' (t.map (fun c => if c = 'E' then 'e' else c)) with
    | [m] =>
      match parseSigned m with
      | some q => .num q
      | none => .nan
    | [m, ex] =>
      match parseSigned m, parseExp ex with
      | some q, some e => .num (q * (10 : ℚ) ^ e)
      | _, _ => .nan
    | _ => .nan

/-- JavaScript `Number(·)` applied to a `string | null` value as returned by
`URLSearchParams.get`: `Number(null)` is `0`, a string goes through string
conversion. -/
def jsNumOfOpt : Option String → JsNum
  | none => .num 0
  | some s => jsToNumber s

/-- JavaScript `s.split(' ')`: split on every single space character. -/
def jsSplitOnSpace (s : String) : List String :=
  (splitChar ' ' s.toList).map (fun g => String.mk g)

/-- `ErrorResponse` of `DiscordLoginTypes.ts`. -/
structure ErrorResponse where
  error : String
  description : String
deriving DecidableEq

/-- `CodeResponse` of `DiscordLoginTypes.ts`. -/
structure CodeResponse where
  code : String
deriving DecidableEq

/-- `TokenResponse` of `DiscordLoginTypes.ts` (without the optional `user`
field, which the orchestrator attaches separately). -/
structure TokenResponse where
  token_type : String
  access_token : String
  expires_in : JsNum
  scope : List String
deriving DecidableEq

/-- The discriminated union `CallbackResponse` of `DiscordLoginTypes.ts`:
`type` is `null`, `'error'`, `'token'` or `'code'`, with the matching payload. -/
inductive CallbackResponse where
  | nullResp : CallbackResponse
  | errorResp : ErrorResponse → CallbackResponse
  | tokenResp : TokenResponse → CallbackResponse
  | codeResp : CodeResponse → CallbackResponse
deriving DecidableEq

/-- Whether a `CallbackResponse` has `type === null`. -/
def CallbackResponse.isNull : CallbackResponse → Bool
  | .nullResp => true
  | _ => false

/-- `getCallbackResponse` of `utils.ts` over the merged query+fragment
parameters.  The branch guards are JavaScript truthiness tests on the values
returned by `params.get`, and the payload fields apply `String(·)` (and
`Number(·)`, and `split(' ')`) exactly as the source does. -/
def getCallbackResponse (q f : Params) : CallbackResponse :=
  let error := getQueryAndHash q f "error"
  let error_description := getQueryAndHash q f "error_description"
  let token_type := getQueryAndHash q f "token_type"
  let code := getQueryAndHash q f "code"
  if truthyStr error || truthyStr error_description then
    .errorResp ⟨jsStr error, jsStr error_description⟩
  else if truthyStr token_type then
    .tokenResp ⟨jsStr token_type,
                jsStr (getQueryAndHash q f "access_token"),
                jsNumOfOpt (getQueryAndHash q f "expires_in"),
                jsSplitOnSpace (jsStr (getQueryAndHash q f "scope"))⟩
  else if truthyStr code then
    .codeResp ⟨jsStr code⟩
  else
    .nullResp

/-- `shouldHandleCallback` of `utils.ts`: some target key is among the merged
map's keys. -/
def shouldHandleCallback (q f : Params) : Bool :=
  ["code", "error", "token_type"].any (fun t => mergedHasKey q f t)

/-- The `responseType` union `'token' | 'code'` of `DiscordLoginTypes.ts`. -/
inductive ResponseType where
  | code : ResponseType
  | token : ResponseType
deriving DecidableEq

/-- `DiscordLoginParams` of `DiscordLoginTypes.ts`: `clientId` required, the
rest optional. -/
structure DiscordLoginParams where
  clientId : String
  redirectUri : Option String
  responseType : Option ResponseType
  scopes : Option (List String)
deriving DecidableEq

/-- `DiscordLoginConfig` of `DiscordLoginTypes.ts`: every field resolved. -/
structure DiscordLoginConfig where
  clientId : String
  redirectUri : String
  responseType : ResponseType
  scopes : List String
deriving DecidableEq

/-- `normalizeDiscordConfig` of `utils.ts`.  `origin` is the ambient
`window.location.origin`.  Each default is applied with JavaScript `||`:
for `redirectUri : string | undefined` both `undefined` and the empty string
are falsy; `responseType` is one of the (truthy) literals `'token'`/`'code'`
or `undefined`; `scopes` is an array or `undefined`, and an array — even an
empty one — is truthy, so only `undefined` is defaulted.  `clientId` is passed
through unchecked. -/
def normalizeDiscordConfig (origin : String) (p : DiscordLoginParams) : DiscordLoginConfig :=
  ⟨p.clientId,
   match p.redirectUri with
   | some s => if s = "" then origin else s
   | none => origin,
   p.responseType.getD .code,
   p.scopes.getD ["identify"]⟩

/-- A JavaScript thrown value as far as this code inspects it: an `Error`
carrying a message, or any other thrown value (`instanceof Error` fails). -/
inductive JsError where
  | err : String → JsError
  | other : JsError
deriving DecidableEq

/-- The message `handleCallback`'s catch block extracts from a caught value:
`e instanceof Error ? e.message : 'Unknown callback error'`. -/
def JsError.message : JsError → String
  | .err m => m
  | .other => "Unknown callback error"

/-- The Discord user profile record (`User` of `DiscordLoginTypes.ts`);
`string | null` fields become `Option String`. -/
structure User where
  id : String
  username : String
  discriminator : String
  global_name : Option String
  avatar : Option String
  banner : Option String
  accent_color : Option String
  locale : Option String
  verified : Bool
  email : Option String
deriving DecidableEq

/-- Decidable equality for `Except`, used to evaluate fetch outcomes. -/
instance {α β : Type} [DecidableEq α] [DecidableEq β] : DecidableEq (Except α β)
  | .error x, .error y =>
    if h : x = y then .isTrue (by rw [h]) else .isFalse (fun hc => by cases hc; exact h rfl)
  | .error _, .ok _ => .isFalse (fun hc => by cases hc)
  | .ok _, .error _ => .isFalse (fun hc => by cases hc)
  | .ok x, .ok y =>
    if h : x = y then .isTrue (by rw [h]) else .isFalse (fun hc => by cases hc; exact h rfl)

/-- The fetch `Response` as `fetchUser` observes it: `status`, `statusText`,
and the outcome of `result.json()` (a parsed profile or a rejection). -/
structure FetchResponse where
  status : Nat
  statusText : String
  body : Except JsError User
deriving DecidableEq

/-- `Response.ok` per the fetch standard: status in the 2xx range. -/
def FetchResponse.ok (r : FetchResponse) : Bool :=
  decide (200 ≤ r.status ∧ r.status ≤ 299)

/-- The `try` body of `fetchUser`: await the transport (which may itself
reject), throw a status error on a non-2xx response without touching the
body, otherwise await `result.json()`. -/
def fetchUserInner (transport : Except JsError FetchResponse) : Except JsError User :=
  match transport with
  | .error e => .error e
  | .ok r =>
    if !r.ok then
      .error (.err ("Discord API responded with status: "
        ++ toString r.status ++ " " ++ r.statusText))
    else r.body

/-- The `catch` block of `fetchUser`: wrap an `Error`'s message with the
`"Failed to fetch user data: "` prefix, anything else with the generic text. -/
def wrapFetchError : JsError → String
  | .err m => "Failed to fetch user data: " ++ m
  | .other => "Failed to fetch user data: Unknown error occurred"

/-- `fetchUser` of `utils.ts` as a function of the transport outcome: the
result of the `try` body, with every rejection routed through the wrapping
`catch`.  (The request construction — URL and `authorization` header — is an
outbound effect not observed by any claim.) -/
def fetchUser (transport : Except JsError FetchResponse) : Except String User :=
  match fetchUserInner transport with
  | .ok u => .ok u
  | .error e => .error (wrapFetchError e)

/-- The visible location as the hook manipulates it: a path plus the parsed
query and fragment parameter lists. -/
structure Location where
  pathname : String
  search : Params
  hash : Params
deriving DecidableEq

/-- The `oauthParams` array of `handleCallback`: the keys scrubbed from the
visible URL. -/
def oauthParamKeys : List String :=
  ["code", "state", "error", "error_description",
   "access_token", "token_type", "expires_in", "scope"]

/-- One `searchParams.delete(k)` loop of the URL-cleanup block: for each key in
`oauthParamKeys`, remove every entry with that key. -/
def deleteOauthParams (l : Params) : Params :=
  oauthParamKeys.foldl (fun acc k => acc.filter (fun p => p.1 != k)) l

/-- The URL-cleanup block of `handleCallback`: keep the pathname, delete the
OAuth keys from the query and from the fragment, and install the result with
`history.replaceState` (no navigation). -/
def cleanupUrl (loc : Location) : Location :=
  ⟨loc.pathname, deleteOauthParams loc.search, deleteOauthParams loc.hash⟩

/-- The three source positions at which `onFailure` is invoked: the `type ===
'error'` step of `handleCallback`, the terminal `catch` of `handleCallback`,
and the `catch` of `callbackRunner`. -/
inductive Site where
  | step : Site
  | catchHandler : Site
  | runner : Site
deriving DecidableEq

/-- The argument passed to `onSuccess`: a `CodeResponse`, or the token spread
together with the fetched user (`{ ...token, user }`). -/
inductive SuccessArg where
  | codeArg : CodeResponse → SuccessArg
  | tokenArg : TokenResponse → User → SuccessArg
deriving DecidableEq

/-- An externally observable action of the hook: a `setLoading` state
transition, the `history.replaceState` URL replacement, or a caller-callback
invocation. -/
inductive Event where
  | setLoadingEv : Bool → Event
  | replaceUrlEv : Location → Event
  | failureEv : Site → ErrorResponse → Event
  | successEv : SuccessArg → Event
deriving DecidableEq

/-- A trace of observable actions, each stamped with the logical time at which
it was emitted.  Time advances by one at every `await` (a suspension point);
code between suspension points runs synchronously at a single instant. -/
abbrev Trace := List (Nat × Event)

/-- The environment one run of the callback sequence executes in: the current
location, the mount schedule (`isMountedRef.current` as a function of logical
time), which caller callbacks are registered, whether the URL-cleanup block
throws (e.g. no `history` support), what each caller callback does when
awaited (`some e` = it rejects with `e`), and the fetch transport outcome. -/
structure World where
  location : Location
  mounted : Nat → Bool
  hasOnFailure : Bool
  hasOnSuccess : Bool
  scrubThrows : Bool
  onFailureRun : ErrorResponse → Option JsError
  onSuccessRun : SuccessArg → Option JsError
  transport : Except JsError FetchResponse

/-- Partial result of one phase of `handleCallback`: emitted events, the clock
after the phase, and the exception (if any) propagating out of it. -/
structure StepOut where
  tr : Trace
  clock : Nat
  thrown : Option JsError
deriving DecidableEq

/-- The opening block of `handleCallback` (runs at time 0): if the parsed type
is not `null` and the hook is mounted, `setLoading(true)` and then the
URL-cleanup block, whose own `try/catch` swallows any cleanup failure. -/
def preTrace (w : World) (resp : CallbackResponse) : Trace :=
  if !resp.isNull && w.mounted 0 then
    (0, .setLoadingEv true)
      :: (if w.scrubThrows then [] else [(0, .replaceUrlEv (cleanupUrl w.location))])
  else []

/-- The three guarded callback steps of `handleCallback` (lines 172–188): at
most one fires, according to the parsed response.  Each `await` advances the
clock; a rejection of an awaited call becomes the `thrown` exception headed
for the terminal `catch`.  For a token response the user fetch is awaited
first, and the mount flag is re-read before `onSuccess` is awaited. -/
def midStep (w : World) : CallbackResponse → StepOut
  | .nullResp => ⟨[], 0, none⟩
  | .errorResp e =>
    if w.hasOnFailure && w.mounted 0 then
      ⟨[(0, .failureEv .step e)], 1, w.onFailureRun e⟩
    else ⟨[], 0, none⟩
  | .codeResp c =>
    if w.hasOnSuccess && w.mounted 0 then
      ⟨[(0, .successEv (.codeArg c))], 1, w.onSuccessRun (.codeArg c)⟩
    else ⟨[], 0, none⟩
  | .tokenResp tok =>
    if w.hasOnSuccess && w.mounted 0 then
      match fetchUser w.transport with
      | .error m => ⟨[], 1, some (.err m)⟩
      | .ok u =>
        if w.mounted 1 then
          ⟨[(1, .successEv (.tokenArg tok u))], 2, w.onSuccessRun (.tokenArg tok u)⟩
        else ⟨[], 1, none⟩
    else ⟨[], 0, none⟩

/-- The terminal `catch` of `handleCallback` (lines 189–195): a caught
exception is converted into one `onFailure` invocation carrying
`callback_error` plus the extracted message — provided a failure callback is
registered and the hook is still mounted; the caught exception itself is
swallowed either way.  The conversion call is awaited, so its own rejection
(`thrown` of the result) escapes `handleCallback`. -/
def catchStep (w : World) (m : StepOut) : StepOut :=
  match m.thrown with
  | none => ⟨[], m.clock, none⟩
  | some e =>
    if w.hasOnFailure && w.mounted m.clock then
      ⟨[(m.clock, .failureEv .catchHandler ⟨"callback_error", e.message⟩)],
       m.clock + 1,
       w.onFailureRun ⟨"callback_error", e.message⟩⟩
    else ⟨[], m.clock, none⟩

/-- The `finally` block of `handleCallback` (lines 196–200): `setLoading
(false)` when the parsed type was not `null` and the hook is still mounted. -/
def finTrace (w : World) (resp : CallbackResponse) (t : Nat) : Trace :=
  if !resp.isNull && w.mounted t then [(t, .setLoadingEv false)] else []

/-- Complete outcome of one `handleCallback` run: trace, final clock, the
exception its `catch` caught (if any), and the exception escaping the whole
call (a rejection of the conversion `onFailure`). -/
structure RunOut where
  tr : Trace
  clock : Nat
  caught : Option JsError
  escaped : Option JsError

/-- `handleCallback` of `useDiscordLogin.ts` for an already-parsed response:
opening block, guarded steps, terminal `catch`, `finally`.  The `finally`
trace is appended last because `finally` runs even when the `catch` block's
awaited call rejects. -/
def handleAux (w : World) (resp : CallbackResponse) : RunOut :=
  let m := midStep w resp
  let c := catchStep w m
  ⟨preTrace w resp ++ m.tr ++ c.tr ++ finTrace w resp c.clock,
   c.clock, m.thrown, c.thrown⟩

/-- `handleCallback` of `useDiscordLogin.ts`: parse the current location, then
run the callback sequence. -/
def handleCallbackRun (w : World) : RunOut :=
  handleAux w (getCallbackResponse w.location.search w.location.hash)

/-- Outcome of one `callbackRunner` run: trace plus the exception escaping
`callbackRunner` itself — an unhandled rejection, since `callbackRunner()` is
invoked without any further handler. -/
structure RunnerOut where
  tr : Trace
  unhandled : Option JsError

/-- The `catch` of `callbackRunner`: a rejection of the awaited
`handleCallback` is converted into one more guarded `onFailure` invocation,
whose own rejection escapes unhandled. -/
def runnerPost (w : World) (r : RunOut) : RunnerOut :=
  match r.escaped with
  | none => ⟨r.tr, none⟩
  | some e =>
    if w.hasOnFailure && w.mounted r.clock then
      ⟨r.tr ++ [(r.clock, .failureEv .runner ⟨"callback_error", e.message⟩)],
       w.onFailureRun ⟨"callback_error", e.message⟩⟩
    else ⟨r.tr, none⟩

/-- `callbackRunner` of `useDiscordLogin.ts` (lines 205–219): short-circuit
unless `shouldHandleCallback()`, then await `handleCallback` under the
runner's own `catch`. -/
def callbackRunnerRun (w : World) : RunnerOut :=
  if shouldHandleCallback w.location.search w.location.hash then
    runnerPost w (handleCallbackRun w)
  else ⟨[], none⟩

/-- One step of replaying the loading flag over a trace event. -/
def loadStep (s : Bool) (p : Nat × Event) : Bool :=
  match p.2 with
  | .setLoadingEv b => b
  | _ => s

/-- The loading flag after a trace has been replayed from the initial
`useState(false)` state. -/
def finalLoading (tr : Trace) : Bool :=
  tr.foldl loadStep false

/-- The conversion failure-callback invocations of a trace: those made by the
two `catch` blocks (as opposed to the `type === 'error'` step). -/
def conversionFailures (tr : Trace) : List Event :=
  (tr.map (fun p => p.2)).filter
    (fun ev =>
      match ev with
      | .failureEv .catchHandler _ => true
      | .failureEv .runner _ => true
      | _ => false)

/-- Every failure-callback invocation of a trace, whatever its call site. -/
def failureInvocations (tr : Trace) : List Event :=
  (tr.map (fun p => p.2)).filter
    (fun ev =>
      match ev with
      | .failureEv _ _ => true
      | _ => false)

/-- A sample parsed profile, used to instantiate fetch outcomes. -/
def sampleUser : User :=
  ⟨"123456789", "testuser", "1234", some "Test User", none, none, none,
   some "en-US", true, none⟩

/-- Concrete run for claim C6: a mounted hook processing `?code=abc&foo=bar`
emits the `replaceState` of the scrubbed URL, which drops `code` and keeps
`foo`. -/
def wC6 : World :=
  ⟨⟨"/cb", [("code", "abc"), ("foo", "bar")], []⟩, fun _ => true, true, true,
   false, fun _ => none, fun _ => none, .error .other⟩

/-- Concrete fragment parameters for the claim C7 witness. -/
def fC7 : Params :=
  [("token_type", "Bearer"), ("access_token", "tok1"),
   ("expires_in", "3600"), ("scope", "identify email")]

/-- Concrete world for the claim C4 witness: an error callback arrives while
the hook unmounts right after the synchronous part (mounted only at time 0). -/
def wC4 : World :=
  ⟨⟨"/", [("error", "access_denied")], []⟩, fun t => t == 0, true, true, false,
   fun _ => none, fun _ => none, .error .other⟩

/-- Concrete world for the claim C5 witness: a full token flow with a
successful profile fetch, mounted throughout. -/
def wC5 : World :=
  ⟨⟨"/cb", [],
    [("token_type", "Bearer"), ("access_token", "tok1"),
     ("expires_in", "3600"), ("scope", "identify")]⟩,
   fun _ => true, true, true, false, fun _ => none, fun _ => none,
   .ok ⟨200, "OK", .ok sampleUser⟩⟩

/-- Counterexample to claim C2 as stated: a URL-scrub exception (the cleanup
block throwing, e.g. for lack of `history` support) is swallowed silently —
the run produces zero failure-callback invocations, not one, even with a
failure callback registered. -/
def wC2x : World :=
  ⟨⟨"/", [("code", "abc")], []⟩, fun _ => true, true, false, true,
   fun _ => none, fun _ => none, .error .other⟩

/-- Concrete world for the claim C2 witness: the awaited `onSuccess` rejects
with `Error("boom")`. -/
def wC2 : World :=
  ⟨⟨"/", [("code", "abc")], []⟩, fun _ => true, true, true, false,
   fun _ => none, fun _ => some (.err "boom"), .error .other⟩

section Lemmas

/-- Folding key deletions over a parameter list keeps exactly the pairs whose
key is not among the deleted ones. -/
lemma mem_foldl_filterKeys (ks : List String) (l : Params) (kv : String × String) :
    kv ∈ ks.foldl (fun acc k => acc.filter (fun p => p.1 != k)) l
      ↔ kv ∈ l ∧ kv.1 ∉ ks := by
  induction ks generalizing l with
  | nil => simp
  | cons k ks ih =>
    simp only [List.foldl_cons, ih, List.mem_filter, bne_iff_ne, List.mem_cons, not_or]
    tauto

/-- A key that is absent from both sources has no merged value. -/
lemma getQueryAndHash_eq_none {q f : Params} {k : String}
    (h : mergedHasKey q f k = false) : getQueryAndHash q f k = none := by
  have hq : hasKey q k = false := by
    cases hq' : hasKey q k
    · rfl
    · simp [mergedHasKey, hq'] at h
  have hf : hasKey f k = false := by
    cases hf' : hasKey f k
    · rfl
    · simp [mergedHasKey, hf'] at h
  have key : ∀ l : Params, hasKey l k = false → lastVal l k = none := by
    intro l hl
    have hnil : l.filter (fun p => p.1 == k) = [] := by
      rw [List.filter_eq_nil_iff]
      intro a ha hak
      have : l.any (fun p => p.1 == k) = true := List.any_eq_true.mpr ⟨a, ha, hak⟩
      rw [hasKey] at hl
      rw [hl] at this
      cases this
    simp [lastVal, hnil]
  simp [getQueryAndHash, key q hq, key f hf, Option.orElse]

end Lemmas

/-- Claim C9: `shouldHandleCallback` returns true if and only if at least one
of the keys `code`, `error`, `token_type` is present among the combined
query-string and fragment parameter keys. -/
theorem claim_C9_detector (q f : Params) :
    shouldHandleCallback q f = true
      ↔ (hasKey (q ++ f) "code" = true ∨ hasKey (q ++ f) "error" = true
          ∨ hasKey (q ++ f) "token_type" = true) := by
  simp only [shouldHandleCallback, mergedHasKey, hasKey, List.any_cons, List.any_nil,
    List.any_append, Bool.or_eq_true, Bool.or_false]

/-- Claim C6: for a non-null callback, the URL-scrubbing step keeps the
pathname, removes exactly the OAuth keys (`code`, `state`, `error`,
`error_description`, `access_token`, `token_type`, `expires_in`, `scope`)
from the query and from the fragment, keeps every other parameter of either,
and the location installed by `history.replaceState` (no navigation) is
exactly this scrubbed one. -/
theorem claim_C6_scrub (loc : Location) :
    (cleanupUrl loc).pathname = loc.pathname
    ∧ (∀ kv : String × String,
        kv ∈ (cleanupUrl loc).search ↔ kv ∈ loc.search ∧ kv.1 ∉ oauthParamKeys)
    ∧ (∀ kv : String × String,
        kv ∈ (cleanupUrl loc).hash ↔ kv ∈ loc.hash ∧ kv.1 ∉ oauthParamKeys)
    ∧ (∀ (w : World) (resp : CallbackResponse),
        w.location = loc → resp.isNull = false → w.mounted 0 = true →
        w.scrubThrows = false →
        (0, Event.replaceUrlEv (cleanupUrl loc)) ∈ (handleAux w resp).tr) := by
  refine ⟨rfl, ?_, ?_, ?_⟩
  · intro kv
    exact mem_foldl_filterKeys oauthParamKeys loc.search kv
  · intro kv
    exact mem_foldl_filterKeys oauthParamKeys loc.hash kv
  · intro w resp hloc hnull hm hscrub
    subst hloc
    simp [handleAux, preTrace, hnull, hm, hscrub, List.mem_append]

/-- Witness for claim C6 at a concrete location and world. -/
theorem claim_C6_scrub_witness :
    (0, Event.replaceUrlEv (cleanupUrl ⟨"/cb", [("code", "abc"), ("foo", "bar")], []⟩))
      ∈ (handleAux wC6 (.codeResp ⟨"abc"⟩)).tr
    ∧ ("foo", "bar") ∈ (cleanupUrl ⟨"/cb", [("code", "abc"), ("foo", "bar")], []⟩).search :=
  ⟨(claim_C6_scrub ⟨"/cb", [("code", "abc"), ("foo", "bar")], []⟩).2.2.2 wC6
      (.codeResp ⟨"abc"⟩) rfl rfl rfl rfl,
   ((claim_C6_scrub ⟨"/cb", [("code", "abc"), ("foo", "bar")], []⟩).2.1
      ("foo", "bar")).mpr ⟨by decide, by decide⟩⟩

/-- Counterexample to claim C8 as stated: `clientId` and a present-but-empty
`scopes` array pass through normalization unchanged, so the returned
configuration can have empty fields. -/
theorem claim_C8_counterexample :
    (normalizeDiscordConfig "https://example.com" ⟨"", none, none, some []⟩).clientId = ""
    ∧ (normalizeDiscordConfig "https://example.com" ⟨"", none, none, some []⟩).scopes = [] :=
  ⟨rfl, rfl⟩

/-- Claim C8 (amended): `normalizeDiscordConfig` replaces an absent
`redirectUri` by the current origin, an absent `responseType` by `code`, and
absent `scopes` by `["identify"]`; in the result `redirectUri` is non-empty
(given a non-empty origin) and `responseType` is always resolved, while
`clientId` and a present `scopes` array are passed through unchecked and may
be empty. -/
theorem claim_C8_normalize (origin : String) (p : DiscordLoginParams)
    (ho : origin ≠ "") :
    (p.redirectUri = none → (normalizeDiscordConfig origin p).redirectUri = origin)
    ∧ (p.responseType = none → (normalizeDiscordConfig origin p).responseType = .code)
    ∧ (p.scopes = none → (normalizeDiscordConfig origin p).scopes = ["identify"])
    ∧ (normalizeDiscordConfig origin p).redirectUri ≠ ""
    ∧ (normalizeDiscordConfig origin p).clientId = p.clientId
    ∧ (∀ l, p.scopes = some l → (normalizeDiscordConfig origin p).scopes = l) := by
  obtain ⟨cid, uri, rty, sc⟩ := p
  refine ⟨?_, ?_, ?_, ?_, rfl, ?_⟩
  · intro h
    cases h
    rfl
  · intro h
    cases h
    rfl
  · intro h
    cases h
    rfl
  · cases uri with
    | none => exact ho
    | some s =>
      by_cases hs : s = ""
      · simpa [normalizeDiscordConfig, hs] using ho
      · simp [normalizeDiscordConfig, hs]
  · intro l h
    cases h
    rfl

/-- Witness for claim C8: only `clientId` set, all defaults applied. -/
theorem claim_C8_normalize_witness :
    (normalizeDiscordConfig "https://example.com" ⟨"cid123", none, none, none⟩).redirectUri
        = "https://example.com"
    ∧ (normalizeDiscordConfig "https://example.com" ⟨"cid123", none, none, none⟩).responseType
        = .code
    ∧ (normalizeDiscordConfig "https://example.com" ⟨"cid123", none, none, none⟩).scopes
        = ["identify"] :=
  have h := claim_C8_normalize "https://example.com" ⟨"cid123", none, none, none⟩
    (by decide)
  ⟨h.1 rfl, h.2.1 rfl, h.2.2.1 rfl⟩

/-- Claim C3: `fetchUser` rejects a non-2xx response with exactly
`"Failed to fetch user data: Discord API responded with status: <status>
<statusText>"` independently of the body; wraps a transport `Error`'s message
with the same prefix; uses `"Failed to fetch user data: Unknown error
occurred"` when the failure carries no message; wraps a body-parsing failure
the same way; and returns the parsed body verbatim on success. -/
theorem claim_C3_fetchUser (u : User) (st : Nat) (stx : String)
    (body : Except JsError User) (m : String) :
    (¬(200 ≤ st ∧ st ≤ 299) →
      fetchUser (.ok ⟨st, stx, body⟩)
        = .error ("Failed to fetch user data: Discord API responded with status: "
            ++ toString st ++ " " ++ stx))
    ∧ fetchUser (.error (.err m)) = .error ("Failed to fetch user data: " ++ m)
    ∧ fetchUser (.error .other) = .error "Failed to fetch user data: Unknown error occurred"
    ∧ (200 ≤ st ∧ st ≤ 299 →
        fetchUser (.ok ⟨st, stx, .error (.err m)⟩)
          = .error ("Failed to fetch user data: " ++ m))
    ∧ (200 ≤ st ∧ st ≤ 299 → fetchUser (.ok ⟨st, stx, .ok u⟩) = .ok u) := by
  refine ⟨?_, rfl, rfl, ?_, ?_⟩
  · intro h
    have hok : FetchResponse.ok ⟨st, stx, body⟩ = false := by
      simp only [FetchResponse.ok, decide_eq_false_iff_not]
      exact h
    have hmerge : ∀ s : String,
        "Failed to fetch user data: " ++ ("Discord API responded with status: " ++ s)
          = "Failed to fetch user data: Discord API responded with status: " ++ s := by
      intro s
      rw [← String.append_assoc]
      exact congrArg (fun t => t ++ s) (by decide)
    simp [fetchUser, fetchUserInner, hok, wrapFetchError, String.append_assoc, hmerge]
  · intro h
    have hok : FetchResponse.ok ⟨st, stx, .error (.err m)⟩ = true := by
      simp only [FetchResponse.ok, decide_eq_true_eq]
      exact h
    simp [fetchUser, fetchUserInner, hok, wrapFetchError]
  · intro h
    have hok : FetchResponse.ok ⟨st, stx, .ok u⟩ = true := by
      simp only [FetchResponse.ok, decide_eq_true_eq]
      exact h
    simp [fetchUser, fetchUserInner, hok]

/-- Witness for claim C3 at the concrete outcomes the test-suite exercises. -/
theorem claim_C3_fetchUser_witness :
    fetchUser (.ok ⟨401, "Unauthorized", .ok sampleUser⟩)
        = .error "Failed to fetch user data: Discord API responded with status: 401 Unauthorized"
    ∧ fetchUser (.error (.err "Network error")) = .error "Failed to fetch user data: Network error"
    ∧ fetchUser (.error .other) = .error "Failed to fetch user data: Unknown error occurred"
    ∧ fetchUser (.ok ⟨200, "OK", .error (.err "Invalid JSON")⟩)
        = .error "Failed to fetch user data: Invalid JSON"
    ∧ fetchUser (.ok ⟨200, "OK", .ok sampleUser⟩) = .ok sampleUser := by
  have h1 := (claim_C3_fetchUser sampleUser 401 "Unauthorized" (.ok sampleUser) "x").1
    (by omega)
  have h2 := (claim_C3_fetchUser sampleUser 200 "OK" (.ok sampleUser) "Network error").2.1
  have h3 := (claim_C3_fetchUser sampleUser 200 "OK" (.ok sampleUser) "x").2.2.1
  have h4 := (claim_C3_fetchUser sampleUser 200 "OK" (.ok sampleUser) "Invalid JSON").2.2.2.1
    (by omega)
  have h5 := (claim_C3_fetchUser sampleUser 200 "OK" (.ok sampleUser) "x").2.2.2.2
    (by omega)
  exact ⟨h1, h2, h3, h4, h5⟩

/-- Claim C10: whenever `getCallbackResponse` produces an error or token
result and a consulted key is absent from the merged parameters, the
corresponding output field is the literal string `"null"` (and the scope list
is `["null"]`) — the `String(null)` coercion, never the empty string. -/
theorem claim_C10_sentinel (q f : Params) :
    (∀ e, getCallbackResponse q f = .errorResp e →
      (mergedHasKey q f "error" = false → e.error = "null")
      ∧ (mergedHasKey q f "error_description" = false → e.description = "null"))
    ∧ (∀ t, getCallbackResponse q f = .tokenResp t →
      (mergedHasKey q f "access_token" = false → t.access_token = "null")
      ∧ (mergedHasKey q f "scope" = false → t.scope = ["null"])) := by
  constructor
  · intro e he
    simp only [getCallbackResponse] at he
    split_ifs at he with h1 h2 h3 <;> try simp at he
    subst he
    refine ⟨fun hk => ?_, fun hk => ?_⟩
    · simp [getQueryAndHash_eq_none hk, jsStr]
    · simp [getQueryAndHash_eq_none hk, jsStr]
  · intro t ht
    simp only [getCallbackResponse] at ht
    split_ifs at ht with h1 h2 h3 <;> try simp at ht
    subst ht
    refine ⟨fun hk => ?_, fun hk => ?_⟩
    · simp [getQueryAndHash_eq_none hk, jsStr]
    · rw [show getQueryAndHash q f "scope" = none from getQueryAndHash_eq_none hk]
      show jsSplitOnSpace (jsStr none) = ["null"]
      decide

/-- Witness for claim C10: a lone `error` key leaves `description = "null"`,
and a lone `token_type` key leaves `access_token = "null"`, `scope =
["null"]`. -/
theorem claim_C10_sentinel_witness :
    (ErrorResponse.mk "denied" "null").description = "null"
    ∧ (TokenResponse.mk "Bearer" "null" (.num 0) ["null"]).access_token = "null"
    ∧ (TokenResponse.mk "Bearer" "null" (.num 0) ["null"]).scope = ["null"] :=
  have he := (claim_C10_sentinel [("error", "denied")] []).1
    ⟨"denied", "null"⟩ (by decide)
  have ht := (claim_C10_sentinel [("token_type", "Bearer")] []).2
    ⟨"Bearer", "null", .num 0, ["null"]⟩ (by decide)
  ⟨he.2 (by decide), ht.1 (by decide), ht.2 (by decide)⟩

/-- Counterexample to claim C1 as stated: an `error` key that is present but
maps to the empty string does not produce an error result — classification is
keyed on value truthiness, not key presence. -/
theorem claim_C1_counterexample :
    mergedHasKey [("error", "")] [] "error" = true
    ∧ getCallbackResponse [("error", "")] [] = .nullResp := by
  decide

/-- Claim C1 (amended): `getCallbackResponse` classifies the merged
query+fragment parameters in the strict priority order error > token > code >
null, keyed on a key being present with a non-empty value: if `error` or
`error_description` has a truthy value the result is an error carrying the
two coerced values; otherwise a truthy `token_type` yields a token result;
otherwise a truthy `code` yields a code result carrying that value; otherwise
the type is null with no payload. -/
theorem claim_C1_classification (q f : Params) :
    ((truthyStr (getQueryAndHash q f "error") = true
        ∨ truthyStr (getQueryAndHash q f "error_description") = true) →
      getCallbackResponse q f
        = .errorResp ⟨jsStr (getQueryAndHash q f "error"),
                      jsStr (getQueryAndHash q f "error_description")⟩)
    ∧ (truthyStr (getQueryAndHash q f "error") = false →
        truthyStr (getQueryAndHash q f "error_description") = false →
        truthyStr (getQueryAndHash q f "token_type") = true →
      getCallbackResponse q f
        = .tokenResp ⟨jsStr (getQueryAndHash q f "token_type"),
                      jsStr (getQueryAndHash q f "access_token"),
                      jsNumOfOpt (getQueryAndHash q f "expires_in"),
                      jsSplitOnSpace (jsStr (getQueryAndHash q f "scope"))⟩)
    ∧ (truthyStr (getQueryAndHash q f "error") = false →
        truthyStr (getQueryAndHash q f "error_description") = false →
        truthyStr (getQueryAndHash q f "token_type") = false →
        truthyStr (getQueryAndHash q f "code") = true →
      getCallbackResponse q f = .codeResp ⟨jsStr (getQueryAndHash q f "code")⟩)
    ∧ (truthyStr (getQueryAndHash q f "error") = false →
        truthyStr (getQueryAndHash q f "error_description") = false →
        truthyStr (getQueryAndHash q f "token_type") = false →
        truthyStr (getQueryAndHash q f "code") = false →
      getCallbackResponse q f = .nullResp) := by
  refine ⟨?_, ?_, ?_, ?_⟩
  · intro h
    rcases h with h | h <;> simp [getCallbackResponse, h]
  · intro h1 h2 h3
    simp [getCallbackResponse, h1, h2, h3]
  · intro h1 h2 h3 h4
    simp [getCallbackResponse, h1, h2, h3, h4]
  · intro h1 h2 h3 h4
    simp [getCallbackResponse, h1, h2, h3, h4]

/-- Witness for claim C1: one concrete location per classification branch. -/
theorem claim_C1_classification_witness :
    getCallbackResponse [("error", "access_denied")] []
        = .errorResp ⟨"access_denied", "null"⟩
    ∧ getCallbackResponse [] [("token_type", "Bearer"), ("access_token", "tok1")]
        = .tokenResp ⟨"Bearer", "tok1", .num 0, ["null"]⟩
    ∧ getCallbackResponse [("code", "abc123")] [] = .codeResp ⟨"abc123"⟩
    ∧ getCallbackResponse [("state", "xyz")] [] = .nullResp := by
  refine ⟨?_, ?_, ?_, ?_⟩
  · exact (claim_C1_classification _ _).1 (Or.inl (by decide))
  · exact (claim_C1_classification _ _).2.1 (by decide) (by decide) (by decide)
  · exact (claim_C1_classification _ _).2.2.1 (by decide) (by decide) (by decide)
      (by decide)
  · exact (claim_C1_classification _ _).2.2.2 (by decide) (by decide) (by decide)
      (by decide)

/-- Counterexample to claim C7 as stated: with `token_type` present and
`expires_in` absent, the parsed `expires_in` is `0` (`Number(null)`), not
`NaN`. -/
theorem claim_C7_counterexample :
    mergedHasKey [("token_type", "Bearer")] [] "expires_in" = false
    ∧ getCallbackResponse [("token_type", "Bearer")] []
        = .tokenResp ⟨"Bearer", "null", .num 0, ["null"]⟩
    ∧ JsNum.num 0 ≠ JsNum.nan := by
  decide

/-- Claim C7 (amended): in a token result, `expires_in` is the JavaScript
numeric conversion of the `expires_in` lookup — a non-numeric string yields
`NaN`, while an absent value yields `0` (the numeric coercion of `null`) —
and `scope` is the `String(·)`-coerced `scope` value split on single spaces,
so an absent `scope` yields the one-element list `["null"]`. -/
theorem claim_C7_token_fields (q f : Params) (t : TokenResponse)
    (he : getCallbackResponse q f = .tokenResp t) :
    t.expires_in = jsNumOfOpt (getQueryAndHash q f "expires_in")
    ∧ t.scope = jsSplitOnSpace (jsStr (getQueryAndHash q f "scope"))
    ∧ jsNumOfOpt none = .num 0
    ∧ jsToNumber "3600" = .num 3600
    ∧ jsToNumber "abc" = .nan
    ∧ jsSplitOnSpace (jsStr none) = ["null"] := by
  simp only [getCallbackResponse] at he
  split_ifs at he with h1 h2 h3 <;> try simp at he
  subst he
  exact ⟨rfl, rfl, by decide, by decide, by decide, by decide⟩

/-- Witness for claim C7 at a fully-populated token fragment. -/
theorem claim_C7_token_fields_witness :
    (TokenResponse.mk "Bearer" "tok1" (.num 3600) ["identify", "email"]).expires_in
        = jsNumOfOpt (getQueryAndHash [] fC7 "expires_in")
    ∧ (TokenResponse.mk "Bearer" "tok1" (.num 3600) ["identify", "email"]).scope
        = jsSplitOnSpace (jsStr (getQueryAndHash [] fC7 "scope")) := by
  have h := claim_C7_token_fields [] fC7
    ⟨"Bearer", "tok1", .num 3600, ["identify", "email"]⟩ (by decide)
  exact ⟨h.1, h.2.1⟩

section OrchestratorLemmas

variable {w : World}

/-- Every event of the opening block is emitted at an instant at which the
hook is mounted. -/
lemma preTrace_mounted (w : World) (resp : CallbackResponse) :
    ∀ p ∈ preTrace w resp, w.mounted p.1 = true := by
  intro p hp
  unfold preTrace at hp
  split at hp
  · rename_i hcond
    have hm : w.mounted 0 = true := (Bool.and_eq_true _ _ |>.mp hcond).2
    rcases List.mem_cons.mp hp with h | h
    · rw [h]
      exact hm
    · split at h
      · cases h
      · rcases List.mem_singleton.mp h with rfl
        exact hm
  · cases hp

/-- Every event of the guarded callback steps is emitted at an instant at
which the hook is mounted. -/
lemma midStep_mounted (w : World) (resp : CallbackResponse) :
    ∀ p ∈ (midStep w resp).tr, w.mounted p.1 = true := by
  intro p hp
  cases resp with
  | nullResp => simp [midStep] at hp
  | errorResp e =>
    simp only [midStep] at hp
    split at hp
    · rename_i hcond
      simp at hp
      rw [hp]
      exact (Bool.and_eq_true _ _ |>.mp hcond).2
    · simp at hp
  | codeResp c =>
    simp only [midStep] at hp
    split at hp
    · rename_i hcond
      simp at hp
      rw [hp]
      exact (Bool.and_eq_true _ _ |>.mp hcond).2
    · simp at hp
  | tokenResp tok =>
    simp only [midStep] at hp
    split at hp
    · split at hp
      · simp at hp
      · split at hp
        · rename_i hm1
          simp at hp
          rw [hp]
          exact hm1
        · simp at hp
    · simp at hp

/-- Every event of the terminal catch block is emitted at an instant at which
the hook is mounted. -/
lemma catchStep_mounted (w : World) (m : StepOut) :
    ∀ p ∈ (catchStep w m).tr, w.mounted p.1 = true := by
  intro p hp
  simp only [catchStep] at hp
  split at hp
  · simp at hp
  · split at hp
    · rename_i hcond
      simp at hp
      rw [hp]
      exact (Bool.and_eq_true _ _ |>.mp hcond).2
    · simp at hp

/-- Every event of the finally block is emitted at an instant at which the
hook is mounted. -/
lemma finTrace_mounted (w : World) (resp : CallbackResponse) (t : Nat) :
    ∀ p ∈ finTrace w resp t, w.mounted p.1 = true := by
  intro p hp
  simp only [finTrace] at hp
  split at hp
  · rename_i hcond
    simp at hp
    rw [hp]
    exact (Bool.and_eq_true _ _ |>.mp hcond).2
  · simp at hp

/-- Every event of a `handleCallback` run is emitted at an instant at which
the hook is mounted. -/
lemma handleAux_mounted (w : World) (resp : CallbackResponse) :
    ∀ p ∈ (handleAux w resp).tr, w.mounted p.1 = true := by
  intro p hp
  simp only [handleAux, List.mem_append] at hp
  rcases hp with ((h | h) | h) | h
  · exact preTrace_mounted w resp p h
  · exact midStep_mounted w resp p h
  · exact catchStep_mounted w _ p h
  · exact finTrace_mounted w resp _ p h

/-- The runner's catch preserves mounted emission: if every event of the
inner run was emitted while mounted, so is every event after the runner's
conversion step. -/
lemma runnerPost_mounted (w : World) (r : RunOut)
    (hr : ∀ p ∈ r.tr, w.mounted p.1 = true) :
    ∀ p ∈ (runnerPost w r).tr, w.mounted p.1 = true := by
  intro p hp
  simp only [runnerPost] at hp
  split at hp
  · exact hr p hp
  · split at hp
    · rename_i hcond
      simp only [List.mem_append] at hp
      rcases hp with h | h
      · exact hr p h
      · simp at h
        rw [h]
        exact (Bool.and_eq_true _ _ |>.mp hcond).2
    · exact hr p hp

/-- Every event of a `callbackRunner` run is emitted at an instant at which
the hook is mounted. -/
lemma callbackRunnerRun_mounted (w : World) :
    ∀ p ∈ (callbackRunnerRun w).tr, w.mounted p.1 = true := by
  intro p hp
  simp only [callbackRunnerRun] at hp
  split at hp
  · exact runnerPost_mounted w _ (handleAux_mounted w _) p hp
  · simp at hp

end OrchestratorLemmas

/-- Claim C4: once the owning context has been unmounted (the mount flag is
irreversibly false from time `t0` on), every event of the callback-handling
sequence — caller callback invocations and loading-state transitions alike —
was emitted strictly before `t0`; in particular a teardown while the profile
fetch is in flight means the success callback is never invoked with its
result. -/
theorem claim_C4_teardown (w : World) (t0 : Nat)
    (hmono : ∀ s t, s ≤ t → w.mounted s = false → w.mounted t = false)
    (h0 : w.mounted t0 = false) :
    ∀ p ∈ (callbackRunnerRun w).tr, p.1 < t0 := by
  intro p hp
  by_contra hge
  push_neg at hge
  have hm := callbackRunnerRun_mounted w p hp
  rw [hmono t0 p.1 hge h0] at hm
  cases hm

/-- Witness for claim C4: in `wC4` the initial `setLoading(true)` is in the
trace, and the theorem places every emitted event before the teardown time 1. -/
theorem claim_C4_teardown_witness : ((0 : Nat), Event.setLoadingEv true).1 < 1 := by
  refine claim_C4_teardown wC4 1 ?_ rfl (0, Event.setLoadingEv true) (by decide)
  intro s t hst hs
  cases t with
  | zero =>
    cases Nat.le_zero.mp hst
    exact hs
  | succ t => rfl

section LoadingLemmas

/-- A trace ending in `setLoading(false)` replays to a false loading flag,
whatever came before. -/
lemma finalLoading_append_fin (pre mid c : Trace) (t : Nat) :
    finalLoading (pre ++ mid ++ c ++ [(t, Event.setLoadingEv false)]) = false := by
  simp [finalLoading, List.foldl_append, List.foldl_cons, List.foldl_nil, loadStep]

/-- Appending a failure-callback event does not change the replayed loading
flag. -/
lemma finalLoading_append_failure (tr : Trace) (t : Nat) (site : Site)
    (a : ErrorResponse) :
    finalLoading (tr ++ [(t, Event.failureEv site a)]) = finalLoading tr := by
  simp [finalLoading, List.foldl_append, List.foldl_cons, List.foldl_nil, loadStep]

/-- With the hook mounted throughout, a `handleCallback` run always ends with
its `finally` block's `setLoading(false)` when the type was not null, and
emits no loading events at all when it was, so the replayed flag is false. -/
lemma handleAux_finalLoading (w : World) (resp : CallbackResponse)
    (hm : ∀ t, w.mounted t = true) :
    finalLoading (handleAux w resp).tr = false := by
  cases hnull : resp.isNull with
  | true =>
    cases resp with
    | nullResp => rfl
    | errorResp e => simp [CallbackResponse.isNull] at hnull
    | tokenResp tok => simp [CallbackResponse.isNull] at hnull
    | codeResp c => simp [CallbackResponse.isNull] at hnull
  | false =>
    have hfin : finTrace w resp ((catchStep w (midStep w resp)).clock)
        = [(((catchStep w (midStep w resp)).clock), Event.setLoadingEv false)] := by
      simp [finTrace, hnull, hm]
    simp only [handleAux, hfin]
    exact finalLoading_append_fin _ _ _ _

/-- The runner's catch preserves a false replayed loading flag. -/
lemma runnerPost_finalLoading (w : World) (r : RunOut)
    (h : finalLoading r.tr = false) :
    finalLoading (runnerPost w r).tr = false := by
  simp only [runnerPost]
  split
  · exact h
  · split
    · rw [finalLoading_append_failure]
      exact h
    · exact h

end LoadingLemmas

/-- Claim C5: with the owning context mounted throughout, the busy flag ends
false after every completion path of the callback-handling sequence —
success, failure callback, or internal exception — so the consumer is never
left permanently loading. -/
theorem claim_C5_loading (w : World) (hm : ∀ t, w.mounted t = true) :
    finalLoading (callbackRunnerRun w).tr = false := by
  simp only [callbackRunnerRun]
  split
  · exact runnerPost_finalLoading w _ (handleAux_finalLoading w _ hm)
  · rfl

/-- Witness for claim C5: the token flow of `wC5` ends with the loading flag
false. -/
theorem claim_C5_loading_witness : finalLoading (callbackRunnerRun wC5).tr = false :=
  claim_C5_loading wC5 (fun _ => rfl)

section ConversionLemmas

/-- Conversion-failure extraction distributes over trace concatenation. -/
lemma conversionFailures_append (a b : Trace) :
    conversionFailures (a ++ b) = conversionFailures a ++ conversionFailures b := by
  simp [conversionFailures, List.map_append, List.filter_append]

/-- The opening block emits no failure-callback conversions. -/
lemma conversionFailures_preTrace (w : World) (resp : CallbackResponse) :
    conversionFailures (preTrace w resp) = [] := by
  simp only [preTrace]
  split
  · split <;> rfl
  · rfl

/-- The guarded callback steps emit no conversion invocations (the
`type === 'error'` step's failure call is at the `step` site). -/
lemma conversionFailures_midStep (w : World) (resp : CallbackResponse) :
    conversionFailures (midStep w resp).tr = [] := by
  cases resp with
  | nullResp => rfl
  | errorResp e =>
    simp only [midStep]
    split <;> rfl
  | codeResp c =>
    simp only [midStep]
    split <;> rfl
  | tokenResp tok =>
    simp only [midStep]
    split
    · split
      · rfl
      · split <;> rfl
    · rfl

/-- The finally block emits no failure-callback conversions. -/
lemma conversionFailures_finTrace (w : World) (resp : CallbackResponse) (t : Nat) :
    conversionFailures (finTrace w resp t) = [] := by
  simp only [finTrace]
  split <;> rfl

/-- With a failure callback registered and the hook mounted, the terminal
catch converts a caught exception into exactly its one conversion event. -/
lemma catchStep_some (w : World) (m : StepOut) (e : JsError)
    (hth : m.thrown = some e) (hf : w.hasOnFailure = true)
    (hm : w.mounted m.clock = true) :
    catchStep w m
      = ⟨[(m.clock, .failureEv .catchHandler ⟨"callback_error", e.message⟩)],
         m.clock + 1, w.onFailureRun ⟨"callback_error", e.message⟩⟩ := by
  simp [catchStep, hth, hf, hm]

/-- With the hook mounted and a non-throwing failure callback registered, no
exception escapes `handleCallback`. -/
lemma handleAux_escaped (w : World) (resp : CallbackResponse)
    (hfr : ∀ a, w.onFailureRun a = none) :
    (handleAux w resp).escaped = none := by
  simp only [handleAux, catchStep]
  split
  · rfl
  · split
    · exact hfr _
    · rfl

end ConversionLemmas

/-- Claim C2 (amended): with the context mounted throughout, a failure
callback registered, and that callback itself not throwing, any exception
raised by the caller callbacks or the user fetch is caught and converted into
exactly one conversion failure-invocation carrying `{ error:
"callback_error", description: <message, or the generic placeholder> }`, and
nothing escapes the orchestrator as an unhandled rejection.  (URL-scrub
exceptions, by contrast, are swallowed by the cleanup block's own `catch`
with no failure invocation at all — see the counterexample.) -/
theorem claim_C2_conversion (w : World)
    (hm : ∀ t, w.mounted t = true)
    (hf : w.hasOnFailure = true)
    (hfr : ∀ a, w.onFailureRun a = none) :
    (callbackRunnerRun w).unhandled = none
    ∧ (handleCallbackRun w).escaped = none
    ∧ ∀ e, (handleCallbackRun w).caught = some e →
        conversionFailures (handleCallbackRun w).tr
          = [.failureEv .catchHandler ⟨"callback_error", e.message⟩] := by
  have hesc : (handleCallbackRun w).escaped = none :=
    handleAux_escaped w _ hfr
  refine ⟨?_, hesc, ?_⟩
  · simp only [callbackRunnerRun]
    split
    · simp only [runnerPost]
      split
      · rfl
      · rename_i e heq
        rw [hesc] at heq
        cases heq
    · rfl
  · intro e he
    have hth : (midStep w (getCallbackResponse w.location.search w.location.hash)).thrown
        = some e := he
    have hcs := catchStep_some w
      (midStep w (getCallbackResponse w.location.search w.location.hash)) e hth hf (hm _)
    show conversionFailures (handleAux w _).tr = _
    simp only [handleAux, hcs]
    rw [conversionFailures_append, conversionFailures_append, conversionFailures_append,
      conversionFailures_preTrace, conversionFailures_midStep, conversionFailures_finTrace]
    rfl

/-- Counterexample theorem for claim C2: in `wC2x` the scrub throws yet no
failure callback is ever invoked. -/
theorem claim_C2_counterexample :
    wC2x.scrubThrows = true
    ∧ failureInvocations (callbackRunnerRun wC2x).tr = [] := by
  decide

/-- Witness for claim C2: the rejection of `onSuccess` in `wC2` is converted
into exactly one `callback_error` invocation and nothing escapes. -/
theorem claim_C2_conversion_witness :
    (callbackRunnerRun wC2).unhandled = none
    ∧ conversionFailures (handleCallbackRun wC2).tr
        = [.failureEv .catchHandler ⟨"callback_error", "boom"⟩] := by
  have h := claim_C2_conversion wC2 (fun _ => rfl) rfl (fun _ => rfl)
  exact ⟨h.1, h.2.2 (.err "boom") (by decide)⟩

end DiscordLogin
